import Mathlib

/-!
Verification of the fetch-then-persist request flow of the
`client-server-api` repository (Go).  The repository contains several
near-duplicate variants:

* `src/server/server.go` — the canonical server: `loadConfig`, `fetchQuote`,
  `saveQuote`, `handleQuote` (namespace `Server` below);
* `src/unnamed/part_000`, first program — the client-only variant:
  `fetchDollarQuote`, `saveQuoteToFile`, `logError`, `main`
  (namespace `Client` below);
* `src/unnamed/part_000`, second program (same handler as the second program
  of `part_001`) — a variant whose `fetchDollarQuote` decodes the body into a
  struct and returns `apiResp.USDBRL.Bid` without any presence check
  (namespace `StructVariant` below);
* `src/unnamed/part_000`, third program — a variant whose database context is
  derived from the fetch context (namespace `ChainedVariant` below).

External effects (the upstream HTTP exchange, the SQLite insert, the local
filesystem) are embedded as explicit data: the outcome of the single upstream
round trip is a value of `UpstreamOutcome`, the database is a list of rows
threaded through the functions, and the filesystem is a map from paths to
contents.
-/

/-- Result of decoding the response body.  `readTimeout` is the case in which
the request deadline elapses while the body is being read, so the decode
error returned by `json.Decoder.Decode` wraps `context.DeadlineExceeded`;
`decodeError` is any other malformed-body failure; `decoded data` is a
successful decode.  `α` is the Go type the body is decoded into
(`map[string]map[string]string` for the server, `map[string]string` for the
client), represented as an association list with the distinct keys of the
decoded Go map. -/
inductive BodyResult (α : Type) where
  | readTimeout : BodyResult α
  | decodeError : BodyResult α
  | decoded (data : α) : BodyResult α
deriving DecidableEq

/-- Outcome of the single outbound HTTP round trip performed with
`http.DefaultClient.Do` (or `client.Do`) under the request context.
`doTimeout` is `Do` failing with an error wrapping
`context.DeadlineExceeded` (the fetch deadline elapsed before a response
arrived); `doError` is any other transport failure of `Do`; `response`
carries the HTTP status code and the body-decoding result. -/
inductive UpstreamOutcome (α : Type) where
  | doTimeout : UpstreamOutcome α
  | doError : UpstreamOutcome α
  | response (status : Nat) (body : BodyResult α) : UpstreamOutcome α
deriving DecidableEq

/-- The error classes a fetch function can return, abstracting the `error`
values built in the Go sources.  `timeout` stands for an error chain wrapping
`context.DeadlineExceeded` (so `errors.Is(err, context.DeadlineExceeded)`
holds exactly for `timeout`); the remaining constructors wrap no deadline
error. -/
inductive FetchError where
  | timeout : FetchError
  | transport : FetchError
  | upstreamStatus (code : Nat) : FetchError
  | decode : FetchError
  | missingField : FetchError
deriving DecidableEq

/-- `errors.Is(err, context.DeadlineExceeded)` on the abstracted error:
true exactly on `FetchError.timeout`. -/
def FetchError.wrapsDeadlineExceeded : FetchError → Bool
  | .timeout => true
  | _ => false

/-- The decoded Go value of type `map[string]map[string]string`. -/
abbrev NestedData := List (String × List (String × String))

/-- The Go expression `data["USDBRL"]["bid"]` with its `ok` flag:
`some bid` when the outer map has key `"USDBRL"` and the inner map has key
`"bid"`; `none` otherwise (a missing outer key yields the nil inner map in
Go, whose lookup reports `ok = false`). -/
def lookupBid (data : NestedData) : Option String :=
  match data.lookup "USDBRL" with
  | some inner => inner.lookup "bid"
  | none => none

/-- One row of the `quotes` table:
`{id: auto-increment integer, bid: text, created_at: timestamp}`. -/
structure QuoteRow where
  id : Nat
  bid : String
  createdAt : Nat
deriving DecidableEq

/-- The `quotes` table together with the auto-increment counter. -/
structure DB where
  rows : List QuoteRow
  nextId : Nat
deriving DecidableEq

/-- Outcome of executing the `INSERT` statement under its context:
`success` (the row is stored), `timeout` (the insert deadline elapsed
mid-statement, the engine rolls the statement back), or `dbError` (any other
database error, statement rolled back). -/
inductive SinkOutcome where
  | success : SinkOutcome
  | timeout : SinkOutcome
  | dbError : SinkOutcome
deriving DecidableEq

/-- The error returned by the database layer on a failed insert. -/
inductive DBError where
  | deadlineExceeded : DBError
  | other : DBError
deriving DecidableEq

/-- `context.WithTimeout(parent, d)` evaluated at absolute time `now`
(nanoseconds): the child deadline is `now + d`, capped by the parent's
deadline when the parent has one (`context.WithDeadline` keeps the earlier
deadline).  `none` is a context with no deadline. -/
def withTimeout (parent : Option Nat) (now d : Nat) : Option Nat :=
  match parent with
  | none => some (now + d)
  | some p => some (min p (now + d))

/-- The deadline of `context.Background()`: none. -/
def backgroundDeadline : Option Nat := none

namespace Server

/-- `fetchQuote` of `src/server/server.go` (lines 134–160): run the GET
request; on a `Do` failure return the wrapped error; on a non-200 status
return an error carrying the status; decode the body into
`map[string]map[string]string`; read `data["USDBRL"]["bid"]` and fail when
the field is absent (`!ok`) or the empty string; otherwise return the bid
string unchanged.  (`http.NewRequestWithContext` cannot fail for the fixed
method and well-formed URL, so no constructor models that branch.) -/
def fetchQuote (u : UpstreamOutcome NestedData) : Except FetchError String :=
  match u with
  | .doTimeout => .error .timeout
  | .doError => .error .transport
  | .response status body =>
    if status ≠ 200 then
      .error (.upstreamStatus status)
    else
      match body with
      | .readTimeout => .error .timeout
      | .decodeError => .error .decode
      | .decoded data =>
        match lookupBid data with
        | none => .error .missingField
        | some bid => if bid = "" then .error .missingField else .ok bid

/-- `saveQuote` of `src/server/server.go` (lines 163–169): execute
`db.WithContext(ctx).Create(&Quote{Bid: bid})`.  The SQL `INSERT` semantics
of the engine: on success exactly one row `(nextId, bid, now)` is appended
and the auto-increment counter advances; on timeout or any other database
error the statement has no effect and an error is returned. -/
def saveQuote (o : SinkOutcome) (db : DB) (bid : String) (now : Nat) :
    Except DBError DB :=
  match o with
  | .success => .ok { rows := db.rows ++ [⟨db.nextId, bid, now⟩],
                      nextId := db.nextId + 1 }
  | .timeout => .error .deadlineExceeded
  | .dbError => .error .other

/-- The body written to the HTTP response: `http.Error` writes a plain-text
message, the success path writes the JSON object `{"bid": <bid>}`. -/
inductive RespBody where
  | errorText (msg : String) : RespBody
  | jsonBid (bid : String) : RespBody
deriving DecidableEq

/-- What one run of the handler produced: the HTTP status code, the body,
whether control reached the `saveQuote` call, and the database state after
the request. -/
structure HandlerResult where
  status : Nat
  body : RespBody
  sinkInvoked : Bool
  db : DB
deriving DecidableEq

/-- `handleQuote` of `src/server/server.go` (lines 100–131): call
`fetchQuote` under the fetch context; on failure answer 504 when
`errors.Is(err, context.DeadlineExceeded)` and 500 otherwise, returning
before the sink; on fetch success call `saveQuote` under a fresh insert
context; on sink failure answer 500; otherwise answer 200 with the bid as
JSON.  `u` is the upstream outcome of this request, `o` the insert outcome,
`db` the database state on entry and `now` the insert wall-clock time. -/
def handleQuote (u : UpstreamOutcome NestedData) (o : SinkOutcome)
    (db : DB) (now : Nat) : HandlerResult :=
  match fetchQuote u with
  | .error e =>
    if e.wrapsDeadlineExceeded then
      ⟨504, .errorText "Timeout na requisição à API", false, db⟩
    else
      ⟨500, .errorText "Erro ao buscar cotação", false, db⟩
  | .ok bid =>
    match saveQuote o db bid now with
    | .error _ => ⟨500, .errorText "Erro ao salvar cotação no banco", true, db⟩
    | .ok db2 => ⟨200, .jsonBid bid, true, db2⟩

/-- The fetch context of `handleQuote`
(`context.WithTimeout(r.Context(), config.FetchTimeout)`, line 104):
derived from the incoming request's context at time `t0`. -/
def fetchCtxDeadline (reqDeadline : Option Nat) (t0 fetchBudget : Nat) :
    Option Nat :=
  withTimeout reqDeadline t0 fetchBudget

/-- The insert context of `handleQuote`
(`context.WithTimeout(context.Background(), config.InsertTimeout)`,
line 119): derived from `context.Background()` at time `t1`, the moment the
insert step begins. -/
def insertCtxDeadline (t1 insertBudget : Nat) : Option Nat :=
  withTimeout backgroundDeadline t1 insertBudget

end Server

/-- The filesystem, as a map from paths to file contents (`none`: no file at
that path). -/
def FS : Type := String → Option String

/-- `os.WriteFile(name, data, perm)` for an existing or new file: the file
named `name` is created if necessary and truncated before writing, so its
content afterwards is exactly `content`; `perm` only sets the mode bits of a
newly created file and never switches the write to append mode. -/
def writeFile (fs : FS) (path content : String) : FS :=
  fun q => if q = path then some content else fs q

/-- The error returned by the file sink: a validation error carrying the Go
message, or a write error from `os.WriteFile`. -/
inductive SinkError where
  | validation (msg : String) : SinkError
  | ioError : SinkError
deriving DecidableEq

/-- True exactly on a validation error. -/
def isValidationError : Option SinkError → Bool
  | some (.validation _) => true
  | _ => false

namespace Client

/-- `serverURL` of the client program. -/
def serverURL : String := "http://localhost:8080/cotacao"

/-- `logFile` of the client program. -/
def logFile : String := "cotacao_log.txt"

/-- `outputFile` of the client program. -/
def outputFile : String := "cotacao.txt"

/-- The decoded Go value of type `map[string]string` used by the client. -/
abbrev FlatData := List (String × String)

/-- `fetchDollarQuote` of the client program (`src/unnamed/part_000`,
lines 47–77): run the GET request; distinguish a deadline-exceeded `Do`
failure from any other; on a non-200 status fail with an error carrying the
status (and the body text); decode into `map[string]string`; fail when
`data["bid"]` is absent or the empty string; otherwise return the bid. -/
def fetchDollarQuote (u : UpstreamOutcome FlatData) : Except FetchError String :=
  match u with
  | .doTimeout => .error .timeout
  | .doError => .error .transport
  | .response status body =>
    if status ≠ 200 then
      .error (.upstreamStatus status)
    else
      match body with
      | .readTimeout => .error .timeout
      | .decodeError => .error .decode
      | .decoded data =>
        match data.lookup "bid" with
        | none => .error .missingField
        | some bid => if bid = "" then .error .missingField else .ok bid

/-- `saveQuoteToFile` of the client program (`src/unnamed/part_000`,
lines 81–89): reject an empty filename, then reject empty content, each
with a validation error and before any write; otherwise overwrite the file
with `os.WriteFile`.  Returns the error (if any) and the filesystem after
the call; the wired call site passes the formatted bid line as `content`. -/
def saveQuoteToFile (fs : FS) (filename content : String) :
    Option SinkError × FS :=
  if filename = "" then
    (some (.validation "nome do arquivo não pode ser nulo"), fs)
  else if content = "" then
    (some (.validation "conteúdo da cotação não pode ser nulo"), fs)
  else
    (none, writeFile fs filename content)

/-- The log line built by `logError`
(`fmt.Sprintf("%s: %v\n", time.Now().Format(time.RFC3339), err)`); `ts` is
the formatted timestamp. -/
def logLine (ts msg : String) : String := ts ++ ": " ++ msg ++ "\n"

/-- `logError` of the client program (`src/unnamed/part_000`, lines 92–98):
write the single log line to `logFile` with `os.WriteFile`.  `os.WriteFile`
truncates the existing file (the `os.ModeAppend` bit in the permission
argument only affects the mode of a newly created file), so the log file
content afterwards is exactly the new line. -/
def logError (fs : FS) (ts msg : String) : FS :=
  writeFile fs logFile (logLine ts msg)

/-- A sequence of `logError` calls, each given its formatted timestamp and
message. -/
def runLog (fs : FS) (entries : List (String × String)) : FS :=
  entries.foldl (fun f e => logError f e.1 e.2) fs

/-- The message a fetch failure prints into the log (the Go error text; the
exact wording is irrelevant to the verified properties, only that an entry
is written). -/
def fetchErrMsg : FetchError → String
  | .timeout => "timeout na requisição ao servidor"
  | .transport => "erro ao realizar requisição ao servidor"
  | .upstreamStatus code => "Resposta inválida do servidor. Status: " ++ toString code
  | .decode => "erro ao decodificar resposta do servidor"
  | .missingField => "campo bid ausente ou inválido na resposta do servidor"

/-- The message a sink failure prints into the log. -/
def sinkErrMsg : SinkError → String
  | .validation m => "erro ao salvar cotação no arquivo: " ++ m
  | .ioError => "erro ao salvar cotação no arquivo: erro de escrita"

/-- What one run of the client produced: the console message and the
filesystem after the run. -/
structure ClientRun where
  printed : String
  fs : FS

/-- `main` of the client program (`src/unnamed/part_000`, lines 23–44):
fetch the bid from the server; on failure log the error and print a notice;
on success write `fmt.Sprintf("Dólar: %s", bid)` to `outputFile` via
`saveQuoteToFile`; on a write failure log it; otherwise print the success
message.  `u` is the upstream outcome of the single request, `fs` the
filesystem on entry, `ts` the formatted wall-clock timestamp. -/
def main (u : UpstreamOutcome FlatData) (fs : FS) (ts : String) : ClientRun :=
  match fetchDollarQuote u with
  | .error e =>
    { printed := "Erro ao buscar cotação. Detalhes salvos no log.",
      fs := logError fs ts (fetchErrMsg e) }
  | .ok bid =>
    match saveQuoteToFile fs outputFile ("Dólar: " ++ bid) with
    | (some e, fs2) =>
      { printed := "Erro ao salvar cotação.",
        fs := logError fs2 ts (sinkErrMsg e) }
    | (none, fs2) =>
      { printed := "Cotação salva com sucesso em " ++ outputFile, fs := fs2 }

end Client

namespace StructVariant

/-- The Go expression `apiResp.USDBRL.Bid` after
`json.NewDecoder(resp.Body).Decode(&apiResp)` into
`APIResponse{USDBRL Quote{Bid string}}`: a key absent from the JSON leaves
the struct field at its zero value, so a missing `USDBRL` or `bid` yields
the empty string. -/
def structBid (data : NestedData) : String :=
  match lookupBid data with
  | some b => b
  | none => ""

/-- `fetchDollarQuote` of the second program of `src/unnamed/part_000`
(lines 120–139): run the GET request and decode the body into the
`APIResponse` struct, then return `apiResp.USDBRL.Bid` directly — there is
no status-code check and no presence or non-emptiness check on the bid. -/
def fetchDollarQuote (u : UpstreamOutcome NestedData) : Except FetchError String :=
  match u with
  | .doTimeout => .error .timeout
  | .doError => .error .transport
  | .response _ body =>
    match body with
    | .readTimeout => .error .timeout
    | .decodeError => .error .decode
    | .decoded data => .ok (structBid data)

/-- `saveToDatabase` of the second program of `src/unnamed/part_000`
(lines 141–151; `saveQuoteToDatabase` of the second program of
`src/unnamed/part_001` is the same statement): execute
`INSERT INTO quotes (bid, timestamp) VALUES (?, ?)` under the database
context.  Same engine semantics as `Server.saveQuote`: on success exactly
one row is appended, on timeout or any other error the statement has no
effect. -/
def saveToDatabase (o : SinkOutcome) (db : DB) (bid : String) (now : Nat) :
    Except DBError DB :=
  match o with
  | .success => .ok { rows := db.rows ++ [⟨db.nextId, bid, now⟩],
                      nextId := db.nextId + 1 }
  | .timeout => .error .deadlineExceeded
  | .dbError => .error .other

/-- `handleQuote` of the second program of `src/unnamed/part_000`
(lines 153–180; identical in the second program of `src/unnamed/part_001`,
lines 249–276): call `fetchDollarQuote` under the fetch context and, on ANY
fetch error, answer `http.StatusInternalServerError` (500) — this handler
never tests `errors.Is(err, context.DeadlineExceeded)` and has no 504
branch; on fetch success call `saveToDatabase`, answering 500 on a sink
failure and 200 with the bid as JSON otherwise. -/
def handleQuote (u : UpstreamOutcome NestedData) (o : SinkOutcome)
    (db : DB) (now : Nat) : Server.HandlerResult :=
  match fetchDollarQuote u with
  | .error _ => ⟨500, .errorText "Erro ao buscar cotação", false, db⟩
  | .ok bid =>
    match saveToDatabase o db bid now with
    | .error _ => ⟨500, .errorText "Erro ao salvar no banco", true, db⟩
    | .ok db2 => ⟨200, .jsonBid bid, true, db2⟩

end StructVariant

namespace ChainedVariant

/-- `QuotesFetchTimeout = 200 * time.Millisecond`, in nanoseconds. -/
def quotesFetchBudget : Nat := 200000000

/-- `DatabaseInsertTimeout = 10 * time.Millisecond`, in nanoseconds. -/
def databaseInsertBudget : Nat := 10000000

/-- The fetch context of the third program of `src/unnamed/part_000`
(`ctx, cancel := context.WithTimeout(r.Context(), QuotesFetchTimeout)`,
line 288), taken at time `t0`. -/
def fetchCtxDeadline (reqDeadline : Option Nat) (t0 : Nat) : Option Nat :=
  withTimeout reqDeadline t0 quotesFetchBudget

/-- The insert context of the third program of `src/unnamed/part_000`
(`dbCtx, dbCancel := context.WithTimeout(ctx, DatabaseInsertTimeout)`,
line 313): derived from the FETCH context `ctx`, taken at time `t1`, so its
deadline is capped by the fetch deadline. -/
def insertCtxDeadline (reqDeadline : Option Nat) (t0 t1 : Nat) : Option Nat :=
  withTimeout (fetchCtxDeadline reqDeadline t0) t1 databaseInsertBudget

end ChainedVariant

/-- Span the leading decimal digits of a character list, returning the
digits and the rest. -/
def spanDigits : List Char → List Char × List Char
  | [] => ([], [])
  | c :: cs =>
    if c.isDigit then
      let p := spanDigits cs
      (c :: p.1, p.2)
    else
      ([], c :: cs)

/-- Numeric value of a list of decimal digits. -/
def digitsVal (ds : List Char) : Nat :=
  ds.foldl (fun n c => n * 10 + (c.toNat - 48)) 0

/-- `time.ParseDuration`, modelled for the integer-with-unit forms this
program can meet (`"200ms"`, `"10ms"`, `"1s"`, ...): a non-empty run of
decimal digits followed by one of the units `ns`, `ms`, `s`, `m`, `h`;
result in nanoseconds; anything else is a parse error. -/
def parseDuration (s : String) : Option Nat :=
  match spanDigits s.data with
  | ([], _) => none
  | (ds, unit) =>
    if unit = ['n', 's'] then some (digitsVal ds)
    else if unit = ['m', 's'] then some (digitsVal ds * 1000000)
    else if unit = ['s'] then some (digitsVal ds * 1000000000)
    else if unit = ['m'] then some (digitsVal ds * 60000000000)
    else if unit = ['h'] then some (digitsVal ds * 3600000000000)
    else none

/-- The process environment, as a partial map from variable names to
values. -/
def Env : Type := String → Option String

namespace Server

/-- `getEnv` of `src/server/server.go` (lines 77–82) and
`src/unnamed/part_001` (lines 73–78): the value of the variable when set,
the fallback otherwise. -/
def getEnv (env : Env) (key fallback : String) : String :=
  match env key with
  | some v => v
  | none => fallback

/-- The `Config` struct of `src/unnamed/part_001` (lines 18–24); the
`Config` of `src/server/server.go` is the same minus `DatabaseFile`.
Durations in nanoseconds. -/
structure Config where
  serverAddress : String
  quotesAPIURL : String
  fetchTimeout : Nat
  insertTimeout : Nat
  databaseFile : String
deriving DecidableEq

/-- `loadConfig` of `src/unnamed/part_001` (lines 52–70): parse
`FETCH_TIMEOUT` (default `"200ms"`) and `INSERT_TIMEOUT` (default `"10ms"`)
as durations, failing on a parse error, and read `SERVER_ADDRESS` (default
`":8080"`), `QUOTES_API_URL` (default the awesomeapi URL) and
`DATABASE_FILE` (default `"quotes.db"`).  `loadConfig` of
`src/server/server.go` (lines 57–74) is identical except that it has no
`DATABASE_FILE` field (that variant hard-codes the `"quotes.db"` path). -/
def loadConfig (env : Env) : Except String Config :=
  match parseDuration (getEnv env "FETCH_TIMEOUT" "200ms") with
  | none => .error "Erro ao parsear FETCH_TIMEOUT"
  | some fetchBudget =>
    match parseDuration (getEnv env "INSERT_TIMEOUT" "10ms") with
    | none => .error "Erro ao parsear INSERT_TIMEOUT"
    | some insertBudget =>
      .ok { serverAddress := getEnv env "SERVER_ADDRESS" ":8080",
            quotesAPIURL := getEnv env "QUOTES_API_URL"
              "https://economia.awesomeapi.com.br/json/last/USD-BRL",
            fetchTimeout := fetchBudget,
            insertTimeout := insertBudget,
            databaseFile := getEnv env "DATABASE_FILE" "quotes.db" }

/-- The path `main` of `src/unnamed/part_001` (line 40) hands to
`setupDatabase`, which opens the SQLite database at that path: the
configuration's `DatabaseFile`. -/
def databaseStoragePath (c : Config) : String := c.databaseFile

end Server

/-! ## Helper lemmas -/

/-- Whatever the upstream and insert outcomes, a handler run only ever
appends to the `quotes` table: the rows on entry survive unchanged as the
leading rows on exit. -/
theorem handleQuote_rows_grow (u : UpstreamOutcome NestedData) (o : SinkOutcome)
    (d : DB) (n : Nat) :
    (Server.handleQuote u o d n).db.rows.take d.rows.length = d.rows ∧
    d.rows.length ≤ (Server.handleQuote u o d n).db.rows.length := by
  unfold Server.handleQuote
  cases hf : Server.fetchQuote u with
  | error e =>
    by_cases ht : e.wrapsDeadlineExceeded <;> simp [ht, List.take_length]
  | ok bid =>
    cases o <;> simp [Server.saveQuote, List.take_left, List.take_length]

/-! ## Claim theorems -/

/-- C1: for every upstream response delivered with status 200 whose body
decodes to a map in which `data["USDBRL"]["bid"]` is present and non-empty,
`fetchQuote` returns exactly that string, character for character. -/
theorem c1_fetchQuote_returns_bid_exact (data : NestedData) (s : String)
    (hs : lookupBid data = some s) (hne : s ≠ "") :
    Server.fetchQuote (.response 200 (.decoded data)) = .ok s := by
  simp [Server.fetchQuote, hs, hne]

/-- C1 witness: the concrete body `{"USDBRL": {"bid": "5.43"}}` yields
exactly `"5.43"`. -/
theorem c1_witness :
    Server.fetchQuote (.response 200 (.decoded [("USDBRL", [("bid", "5.43")])])) =
      .ok "5.43" :=
  c1_fetchQuote_returns_bid_exact [("USDBRL", [("bid", "5.43")])] "5.43" rfl
    (by decide)

/-- C2 (amended): in the handler of `src/server/server.go`, whenever the
fetch step fails, the response is 504 exactly when the failure wraps
`context.DeadlineExceeded` (the fetch deadline elapsed) and 500 for every
other fetch failure, and the handler returns without reaching the sink
call.  (The `part_000`/`part_001` second-program handlers instead answer
500 for every fetch failure, timeout included — see the counterexample.) -/
theorem c2_handleQuote_fetch_failure_status (u : UpstreamOutcome NestedData)
    (o : SinkOutcome) (db : DB) (now : Nat) (e : FetchError)
    (h : Server.fetchQuote u = .error e) :
    (Server.handleQuote u o db now).status = (if e = .timeout then 504 else 500) ∧
    (Server.handleQuote u o db now).sinkInvoked = false := by
  cases e <;> simp [Server.handleQuote, h, FetchError.wrapsDeadlineExceeded]

/-- C2 witness: a fetch that times out is answered 504 with the sink not
invoked. -/
theorem c2_witness :
    (Server.handleQuote .doTimeout .success (DB.mk [] 1) 0).status = 504 ∧
    (Server.handleQuote .doTimeout .success (DB.mk [] 1) 0).sinkInvoked = false := by
  have h := c2_handleQuote_fetch_failure_status .doTimeout .success (DB.mk [] 1) 0
    .timeout rfl
  simpa using h

/-- C2 counterexample: the handler of the second program of
`src/unnamed/part_000` (lines 153–165; identical in the second program of
`src/unnamed/part_001`, lines 249–261) has no 504 branch.  A fetch deadline
elapse — `client.Do` failing with an error wrapping
`context.DeadlineExceeded`, so the Fetcher fails with the Timeout condition
— is answered 500, refuting the claim as stated over the cited handlers. -/
theorem c2_variant_counterexample :
    StructVariant.fetchDollarQuote (UpstreamOutcome.doTimeout) =
      .error .timeout ∧
    (StructVariant.handleQuote .doTimeout .success (DB.mk [] 1) 0).status = 500 :=
  ⟨rfl, rfl⟩

/-- C5: whenever the fetch step fails (timeout, transport, bad status,
decode or missing field), the sink is never invoked and the database rows
on exit are exactly the rows on entry. -/
theorem c5_handleQuote_fetch_failure_preserves_db (u : UpstreamOutcome NestedData)
    (o : SinkOutcome) (db : DB) (now : Nat) (e : FetchError)
    (h : Server.fetchQuote u = .error e) :
    (Server.handleQuote u o db now).sinkInvoked = false ∧
    (Server.handleQuote u o db now).db = db := by
  cases e <;> simp [Server.handleQuote, h, FetchError.wrapsDeadlineExceeded]

/-- C5 witness: an upstream status 503 leaves the database untouched and the
sink uninvoked. -/
theorem c5_witness :
    (Server.handleQuote (.response 503 .decodeError) .success (DB.mk [] 1) 0).sinkInvoked
        = false ∧
    (Server.handleQuote (.response 503 .decodeError) .success (DB.mk [] 1) 0).db
        = DB.mk [] 1 :=
  c5_handleQuote_fetch_failure_preserves_db (.response 503 .decodeError) .success
    (DB.mk [] 1) 0 (.upstreamStatus 503) rfl

/-- C6: every successful `saveQuote` call appends exactly one row, that
row's `bid` column equals the given bid, and every pre-existing row is
unchanged; moreover no handler run (the only code path that writes the
table) removes or modifies existing rows. -/
theorem c6_saveQuote_appends_one_row (o : SinkOutcome) (db : DB) (bid : String)
    (now : Nat) (db2 : DB) (h : Server.saveQuote o db bid now = .ok db2)
    (u : UpstreamOutcome NestedData) (o2 : SinkOutcome) (d : DB) (n : Nat) :
    db2.rows = db.rows ++ [QuoteRow.mk db.nextId bid now] ∧
    (QuoteRow.mk db.nextId bid now).bid = bid ∧
    (Server.handleQuote u o2 d n).db.rows.take d.rows.length = d.rows ∧
    d.rows.length ≤ (Server.handleQuote u o2 d n).db.rows.length := by
  cases o with
  | success =>
    simp only [Server.saveQuote, Except.ok.injEq] at h
    refine ⟨?_, rfl, (handleQuote_rows_grow u o2 d n).1,
      (handleQuote_rows_grow u o2 d n).2⟩
    rw [← h]
  | timeout => simp [Server.saveQuote] at h
  | dbError => simp [Server.saveQuote] at h

/-- C6 witness: inserting `"5.43"` into the empty table yields exactly the
one new row. -/
theorem c6_witness :
    (DB.mk [QuoteRow.mk 1 "5.43" 7] 2).rows =
        (DB.mk [] 1).rows ++ [QuoteRow.mk (DB.mk [] 1).nextId "5.43" 7] ∧
    (QuoteRow.mk (DB.mk [] 1).nextId "5.43" 7).bid = "5.43" ∧
    (Server.handleQuote .doTimeout .success (DB.mk [] 1) 7).db.rows.take
        (DB.mk [] 1).rows.length = (DB.mk [] 1).rows ∧
    (DB.mk [] 1).rows.length ≤
        (Server.handleQuote .doTimeout .success (DB.mk [] 1) 7).db.rows.length :=
  c6_saveQuote_appends_one_row .success (DB.mk [] 1) "5.43" 7
    (DB.mk [QuoteRow.mk 1 "5.43" 7] 2) rfl .doTimeout .success (DB.mk [] 1) 7

/-- C3 (amended): in `src/server/server.go` the insert context is derived
from `context.Background()`, so the insert deadline is exactly the moment
the insert step begins plus the insert budget, whatever the incoming
request deadline, the fetch start time and the fetch budget were — the
remaining fetch budget never shortens it. -/
theorem c3_server_insert_deadline_independent (_reqDeadline : Option Nat)
    (_t0 _fetchBudget t1 insertBudget : Nat) :
    Server.insertCtxDeadline t1 insertBudget = some (t1 + insertBudget) := rfl

/-- C3 counterexample: in the third program of `src/unnamed/part_000` the
insert context is derived from the fetch context.  With no request
deadline, fetch step starting at 0 (deadline 200ms) and insert step
starting at 195ms, the insert deadline is 200ms — strictly earlier than
195ms plus the 10ms insert budget, so the remaining fetch budget shortens
the insert budget, contradicting the claim as stated. -/
theorem c3_chained_counterexample :
    ChainedVariant.insertCtxDeadline none 0 195000000 = some 200000000 ∧
    200000000 < 195000000 + ChainedVariant.databaseInsertBudget := by
  constructor
  · rfl
  · decide

/-- C4 (amended): in `src/server/server.go`, an upstream response delivered
with status 200 whose decoded body lacks `data["USDBRL"]["bid"]` or carries
it as the empty string makes `fetchQuote` fail with the missing-field
error, returning no extracted value. -/
theorem c4_fetchQuote_missing_or_empty_bid (data : NestedData)
    (h : lookupBid data = none ∨ lookupBid data = some "") :
    Server.fetchQuote (.response 200 (.decoded data)) = .error .missingField := by
  rcases h with h | h <;> simp [Server.fetchQuote, h]

/-- C4 witness: the body `{}` (no `USDBRL` key) makes `fetchQuote` fail with
the missing-field error. -/
theorem c4_witness :
    Server.fetchQuote (.response 200 (.decoded [])) = .error .missingField :=
  c4_fetchQuote_missing_or_empty_bid [] (Or.inl rfl)

/-- C4 counterexample: the struct-decoding fetcher of
`src/unnamed/part_000` (second program, lines 120–139) does not fail on a
body lacking the bid: on `{"USDBRL": {}}` it returns success with the
zero-value empty string instead of a missing-field failure, refuting the
claim as stated over the cited code. -/
theorem c4_struct_counterexample :
    StructVariant.fetchDollarQuote (.response 200 (.decoded [("USDBRL", [])])) =
      .ok "" := rfl

/-- C7: in the client-only variant, whenever the fetch succeeds with bid
`bid`, the output file afterwards holds exactly the string `"Dólar: "`
followed by `bid`, whatever its previous content was. -/
theorem c7_client_writes_formatted_quote (u : UpstreamOutcome Client.FlatData)
    (fs : FS) (ts : String) (bid : String)
    (h : Client.fetchDollarQuote u = .ok bid) :
    (Client.main u fs ts).fs Client.outputFile = some ("Dólar: " ++ bid) := by
  have hc : ("Dólar: " ++ bid) ≠ "" := by
    intro hEq
    have hlen := congrArg String.length hEq
    rw [String.length_append] at hlen
    have h7 : "Dólar: ".length = 7 := rfl
    have h0 : "".length = 0 := rfl
    omega
  simp [Client.main, h, Client.saveQuoteToFile, Client.outputFile, hc, writeFile]

/-- C7 witness: a fetch succeeding with `"5.20"` leaves the output file at
exactly `"Dólar: 5.20"`, on a filesystem where it previously held other
content. -/
theorem c7_witness :
    (Client.main (.response 200 (.decoded [("bid", "5.20")]))
        (fun _ => some "old content") "t").fs Client.outputFile =
      some ("Dólar: " ++ "5.20") :=
  c7_client_writes_formatted_quote (.response 200 (.decoded [("bid", "5.20")]))
    (fun _ => some "old content") "t" "5.20" rfl

/-- C8: the file sink rejects an empty content line (the bid-carrying
argument) and an empty output path, each with a validation error raised
before any write: the filesystem is returned unchanged. -/
theorem c8_saveQuoteToFile_rejects_empty (fs : FS) (filename content : String)
    (h : filename = "" ∨ content = "") :
    isValidationError (Client.saveQuoteToFile fs filename content).1 = true ∧
    (Client.saveQuoteToFile fs filename content).2 = fs := by
  rcases h with h | h
  · subst h
    simp [Client.saveQuoteToFile, isValidationError]
  · subst h
    by_cases hf : filename = ""
    · subst hf
      simp [Client.saveQuoteToFile, isValidationError]
    · simp [Client.saveQuoteToFile, hf, isValidationError]

/-- C8 witness: an empty content with a valid path is rejected with a
validation error and the filesystem is unchanged. -/
theorem c8_witness :
    isValidationError (Client.saveQuoteToFile (fun _ => none) "cotacao.txt" "").1
        = true ∧
    (Client.saveQuoteToFile (fun _ => none) "cotacao.txt" "").2 =
      (fun _ => none : FS) :=
  c8_saveQuoteToFile_rejects_empty (fun _ => none) "cotacao.txt" "" (Or.inr rfl)

/-- C9: with every variable unset, `loadConfig` yields the documented
defaults (`":8080"`, 200ms fetch budget, 10ms insert budget, `"quotes.db"`
storage path); and whenever `DATABASE_FILE` is set, the storage path handed
to the database layer is exactly its value. -/
theorem c9_loadConfig_defaults :
    Server.loadConfig (fun _ => none) = Except.ok
      { serverAddress := ":8080",
        quotesAPIURL := "https://economia.awesomeapi.com.br/json/last/USD-BRL",
        fetchTimeout := 200000000,
        insertTimeout := 10000000,
        databaseFile := "quotes.db" } ∧
    ∀ (env : Env) (p : String), env "DATABASE_FILE" = some p →
      ∀ c, Server.loadConfig env = Except.ok c →
        Server.databaseStoragePath c = p := by
  constructor
  · rfl
  · intro env p hp c hc
    unfold Server.loadConfig at hc
    cases h1 : parseDuration (Server.getEnv env "FETCH_TIMEOUT" "200ms") with
    | none => rw [h1] at hc; cases hc
    | some a =>
      rw [h1] at hc
      cases h2 : parseDuration (Server.getEnv env "INSERT_TIMEOUT" "10ms") with
      | none => rw [h2] at hc; cases hc
      | some b =>
        rw [h2] at hc
        cases hc
        simp [Server.databaseStoragePath, Server.getEnv, hp]

/-- C9 witness: with `DATABASE_FILE=custom.db` the loaded configuration's
storage path is `"custom.db"`. -/
theorem c9_witness :
    Server.databaseStoragePath
      { serverAddress := ":8080",
        quotesAPIURL := "https://economia.awesomeapi.com.br/json/last/USD-BRL",
        fetchTimeout := 200000000,
        insertTimeout := 10000000,
        databaseFile := "custom.db" } = "custom.db" :=
  c9_loadConfig_defaults.2
    (fun k => if k = "DATABASE_FILE" then some "custom.db" else none)
    "custom.db" rfl
    { serverAddress := ":8080",
      quotesAPIURL := "https://economia.awesomeapi.com.br/json/last/USD-BRL",
      fetchTimeout := 200000000,
      insertTimeout := 10000000,
      databaseFile := "custom.db" } rfl

/-- C10: `logError` writes with truncating semantics, so after any sequence
of calls ending with the entry `(ts, msg)`, starting from any filesystem,
the log file holds exactly that one last formatted line. -/
theorem c10_logError_truncates (fs : FS) (entries : List (String × String))
    (ts msg : String) :
    Client.runLog fs (entries ++ [(ts, msg)]) Client.logFile =
      some (Client.logLine ts msg) := by
  simp [Client.runLog, List.foldl_append, Client.logError, writeFile]
